import Mathlib

set_option autoImplicit false

/-
Shallow embedding of `x-log4rs-sqlite` (src/lib.rs): a buffered,
batch-flushing log4rs appender that persists log records to a SQLite file.

Modelling choices:
* `LogRecord`, `SqliteLogAppender`, `SqliteLogAppenderConfig` mirror the Rust
  structs field by field; the `Arc<RwLock<Vec<LogRecord>>>` buffer becomes a
  `List LogRecord` (single-threaded embedding: the lock is always acquired
  successfully, matching the code's behaviour in the absence of poisoning).
* The durable SQLite database behind `self.file_name` is modelled as a
  `Store` (created tables, created indices, committed rows of `entry` in
  insertion order) inside a `World` that additionally counts how many times a
  store connection was opened, so that "no store connection is opened" is an
  observable fact.
* The fallible external SQLite calls (`Connection::open`, the two DDL
  `execute`s, `transaction`, `prepare`, each `stmt.execute` insert, `commit`)
  are driven by an oracle `Env` saying which call succeeds; a dropped
  (uncommitted) transaction rolls back, so `Store.entries` changes only at a
  successful commit, exactly as in rusqlite.
* `anyhow::Result` becomes an explicit `Option SqlError` error component;
  the `.expect` panics of `Append::flush` become `FlushOutcome.panicked`.
-/

/-- One observed event, as in `struct LogRecord` (src/lib.rs:11-16). -/
structure LogRecord where
  id : String
  level : String
  ts : String
  message : String
deriving DecidableEq, Repr

/-- State of the durable SQLite store: which tables and indices have been
created, and the committed rows of the `entry` table in insertion order. -/
structure Store where
  tables : List String
  indices : List String
  entries : List LogRecord
deriving DecidableEq, Repr

/-- The store plus a count of how many store connections were opened
(each call to `rusqlite::Connection::open` increments it). -/
structure World where
  store : Store
  connOpens : Nat
deriving DecidableEq, Repr

/-- Errors of the external SQLite calls made by the appender. -/
inductive SqlError where
  | openFailed
  | createTableFailed
  | createIndexFailed
  | beginFailed
  | prepareFailed
  | insertFailed (i : Nat)
  | commitFailed
deriving DecidableEq, Repr

/-- Oracle for the fallible external SQLite calls: which call succeeds.
`insertOk i` decides the insert of the i-th buffered record (0-based). -/
structure Env where
  openOk : Bool
  createTableOk : Bool
  createIndexOk : Bool
  beginOk : Bool
  prepareOk : Bool
  insertOk : Nat → Bool
  commitOk : Bool

/-- `flushStepsOk env n` holds when every external call of a flush of an
`n`-record buffer succeeds: open, the two bootstrap DDL statements, begin,
prepare, the `n` inserts, and commit. -/
def Env.flushStepsOk (env : Env) (n : Nat) : Bool :=
  env.openOk && env.createTableOk && env.createIndexOk && env.beginOk &&
    env.prepareOk && ((List.range n).all fun i => env.insertOk i) && env.commitOk

/-- The environment in which every external call succeeds. -/
def happyEnv : Env :=
  { openOk := true, createTableOk := true, createIndexOk := true,
    beginOk := true, prepareOk := true, insertOk := fun _ => true,
    commitOk := true }

/-- The appender, as in `struct SqliteLogAppender` (src/lib.rs:5-9):
the buffered records, the flush threshold `buf_size`, and the store
locator `file_name`. -/
structure SqliteLogAppender where
  buf : List LogRecord
  buf_size : Nat
  file_name : String
deriving DecidableEq, Repr

/-- `SqliteLogAppender::new` (src/lib.rs:19-25): builds the appender with an
empty buffer and returns `Ok`. It is threaded through the `World` to make
explicit that the constructor body performs no store operation. -/
def SqliteLogAppender.new (buf_size : Nat) (file_name : String) (w : World) :
    Except SqlError SqliteLogAppender × World :=
  (Except.ok ⟨[], buf_size, file_name⟩, w)

/-- Effect on the store of executing
`create table if not exists entry (...)` (src/lib.rs:27-32). -/
def execCreateEntryTable (s : Store) : Store :=
  if "entry" ∈ s.tables then s else { s with tables := s.tables ++ ["entry"] }

/-- Effect on the store of executing
`create index if not exists entry_ts_i on entry (ts)` (src/lib.rs:33). -/
def execCreateEntryTsIndex (s : Store) : Store :=
  if "entry_ts_i" ∈ s.indices then s
  else { s with indices := s.indices ++ ["entry_ts_i"] }

/-- The two bootstrap statements run in order (the success case of
`create_entry_table_if_not_exists`). -/
def bootstrapStore (s : Store) : Store :=
  execCreateEntryTsIndex (execCreateEntryTable s)

/-- `SqliteLogAppender::create_entry_table_if_not_exists` (src/lib.rs:26-37):
executes the table DDL then the index DDL, stopping at the first failing
`execute`; DDL is auto-committed, so a change made by a succeeding statement
persists even when a later statement fails. -/
def SqliteLogAppender.create_entry_table_if_not_exists (env : Env) (s : Store) :
    Store × Option SqlError :=
  if env.createTableOk then
    let s1 := execCreateEntryTable s
    if env.createIndexOk then (execCreateEntryTsIndex s1, none)
    else (s1, some SqlError.createIndexFailed)
  else (s, some SqlError.createTableFailed)

/-- `SqliteLogAppender::connect` (src/lib.rs:38-42): open the store at
`self.file_name` (counted in `connOpens`), then bootstrap the schema. -/
def SqliteLogAppender.connect (env : Env) (a : SqliteLogAppender) (w : World) :
    World × Option SqlError :=
  if env.openOk then
    let b := SqliteLogAppender.create_entry_table_if_not_exists env w.store
    ({ store := b.1, connOpens := w.connOpens + 1 }, b.2)
  else ({ w with connOpens := w.connOpens + 1 }, some SqlError.openFailed)

/-- The insert loop of `flush_buf` (src/lib.rs:56-58): one
`stmt.execute` per buffered record in buffer order, accumulating the
transaction's pending rows; stops at the first failing insert. -/
def runInserts (env : Env) :
    List LogRecord → Nat → List LogRecord → List LogRecord × Option SqlError
  | [], _, pending => (pending, none)
  | lr :: rest, i, pending =>
    if env.insertOk i then runInserts env rest (i + 1) (pending ++ [lr])
    else (pending, some (SqlError.insertFailed i))

/-- `SqliteLogAppender::flush_buf` (src/lib.rs:50-63): connect (open +
bootstrap), begin a transaction, prepare the insert statement, insert every
buffered record in order, commit, and only then clear the buffer. Every `?`
early-returns the error; an uncommitted transaction is rolled back on drop,
so `entries` changes only at a successful commit, and `buf_lock.clear()` is
not reached on any failure. -/
def SqliteLogAppender.flush_buf (env : Env) (a : SqliteLogAppender)
    (buf_lock : List LogRecord) (w : World) :
    List LogRecord × World × Option SqlError :=
  let c := SqliteLogAppender.connect env a w
  match c.2 with
  | some e => (buf_lock, c.1, some e)
  | none =>
    if env.beginOk then
      if env.prepareOk then
        let r := runInserts env buf_lock 0 []
        match r.2 with
        | some e => (buf_lock, c.1, some e)
        | none =>
          if env.commitOk then
            ([], { c.1 with
                    store := { (c.1).store with
                                entries := (c.1).store.entries ++ r.1 } }, none)
          else (buf_lock, c.1, some SqlError.commitFailed)
      else (buf_lock, c.1, some SqlError.prepareFailed)
    else (buf_lock, c.1, some SqlError.beginFailed)

/-- `SqliteLogAppender::maybe_flush_buf` (src/lib.rs:43-49): return `Ok`
without any store operation while `buf_lock.len() < self.buf_size`,
otherwise run `flush_buf`. -/
def SqliteLogAppender.maybe_flush_buf (env : Env) (a : SqliteLogAppender)
    (buf_lock : List LogRecord) (w : World) :
    List LogRecord × World × Option SqlError :=
  if buf_lock.length < a.buf_size then (buf_lock, w, none)
  else SqliteLogAppender.flush_buf env a buf_lock w

/-- `<SqliteLogAppender as Append>::append` (src/lib.rs:76-92): build the
record (its `id` and `ts` are stamped by uuid/clock, here taken as the
record's fields), lock the buffer, push, then `maybe_flush_buf`; the error,
if any, is returned to the caller as a value, and the locked buffer as
mutated so far is written back. -/
def SqliteLogAppender.append (env : Env) (a : SqliteLogAppender)
    (lr : LogRecord) (w : World) :
    SqliteLogAppender × World × Option SqlError :=
  let r := SqliteLogAppender.maybe_flush_buf env a (a.buf ++ [lr]) w
  ({ a with buf := r.1 }, r.2.1, r.2.2)

/-- Outcome of `<SqliteLogAppender as Append>::flush`, which returns `()` or
panics through `.expect` (src/lib.rs:93-96). -/
inductive FlushOutcome where
  | returned
  | panicked (e : SqlError)
deriving DecidableEq, Repr

/-- `<SqliteLogAppender as Append>::flush` (src/lib.rs:93-96): lock the
buffer and run `flush_buf` unconditionally; any error makes the call panic
(`.expect("Error flushing buf")`) rather than return an error value. -/
def SqliteLogAppender.flush (env : Env) (a : SqliteLogAppender) (w : World) :
    SqliteLogAppender × World × FlushOutcome :=
  let r := SqliteLogAppender.flush_buf env a a.buf w
  match r.2.2 with
  | none => ({ a with buf := r.1 }, r.2.1, FlushOutcome.returned)
  | some e => ({ a with buf := r.1 }, r.2.1, FlushOutcome.panicked e)

/-- A sequence of `append` calls, stopping at the first failing call
(each call's error would be surfaced to its producer). -/
def SqliteLogAppender.appendSeq (env : Env) :
    SqliteLogAppender → List LogRecord → World →
      SqliteLogAppender × World × Option SqlError
  | a, [], w => (a, w, none)
  | a, lr :: rest, w =>
    match SqliteLogAppender.append env a lr w with
    | (a', w', none) => SqliteLogAppender.appendSeq env a' rest w'
    | (a', w', some e) => (a', w', some e)

/-- `struct SqliteLogAppenderConfig` (src/lib.rs:99-103): a single field
`path`, with `#[serde(deny_unknown_fields)]`. -/
structure SqliteLogAppenderConfig where
  path : String
deriving DecidableEq, Repr

/-- Configuration-deserialization errors of serde for this struct. -/
inductive ConfigError where
  | unknownField (k : String)
  | duplicateField
  | missingField
deriving DecidableEq, Repr

/-- The serde field visitor for `SqliteLogAppenderConfig` with
`deny_unknown_fields`: fields are visited in order; a key other than
`path` is an unknown-field error, a second `path` is a duplicate-field
error, and a missing `path` at the end is a missing-field error. -/
def deserializeConfigFields :
    List (String × String) → Option String →
      Except ConfigError SqliteLogAppenderConfig
  | [], some p => Except.ok ⟨p⟩
  | [], none => Except.error ConfigError.missingField
  | (k, v) :: rest, acc =>
    if k = "path" then
      match acc with
      | some _ => Except.error ConfigError.duplicateField
      | none => deserializeConfigFields rest (some v)
    else Except.error (ConfigError.unknownField k)

/-- Deserialization of `SqliteLogAppenderConfig` from its list of
configuration fields (src/lib.rs:99-103). -/
def SqliteLogAppenderConfig.deserialize (fields : List (String × String)) :
    Except ConfigError SqliteLogAppenderConfig :=
  deserializeConfigFields fields none

/-- `<SqliteLogAppenderDeserializer as Deserialize>::deserialize`
(src/lib.rs:111-117): builds the sink with the fixed threshold 1024 and the
configured path. -/
def SqliteLogAppenderDeserializer.deserialize
    (config : SqliteLogAppenderConfig) (w : World) :
    Except SqlError SqliteLogAppender × World :=
  SqliteLogAppender.new 1024 config.path w

/-- A concrete record used by the witnesses. -/
def r0 : LogRecord := ⟨"id0", "INFO", "2024-01-01 00:00:00.000000", "hello"⟩

/-- A second concrete record used by the witnesses. -/
def r1 : LogRecord := ⟨"id1", "WARN", "2024-01-01 00:00:01.000000", "world"⟩

/-- The fresh world: empty store, no connection opened yet. -/
def w0 : World := ⟨⟨[], [], []⟩, 0⟩

/-- An environment in which every insert fails (everything else succeeds). -/
def badInsertEnv : Env :=
  { happyEnv with insertOk := fun _ => false }

/-! ### Store and bootstrap lemmas -/

@[simp] theorem execCreateEntryTable_indices (s : Store) :
    (execCreateEntryTable s).indices = s.indices := by
  unfold execCreateEntryTable; split <;> rfl

@[simp] theorem execCreateEntryTable_entries (s : Store) :
    (execCreateEntryTable s).entries = s.entries := by
  unfold execCreateEntryTable; split <;> rfl

@[simp] theorem execCreateEntryTsIndex_tables (s : Store) :
    (execCreateEntryTsIndex s).tables = s.tables := by
  unfold execCreateEntryTsIndex; split <;> rfl

@[simp] theorem execCreateEntryTsIndex_entries (s : Store) :
    (execCreateEntryTsIndex s).entries = s.entries := by
  unfold execCreateEntryTsIndex; split <;> rfl

@[simp] theorem bootstrapStore_entries (s : Store) :
    (bootstrapStore s).entries = s.entries := by
  unfold bootstrapStore; simp

theorem execCreateEntryTable_mem (s : Store) :
    "entry" ∈ (execCreateEntryTable s).tables := by
  unfold execCreateEntryTable; split <;> simp_all

theorem execCreateEntryTsIndex_mem (s : Store) :
    "entry_ts_i" ∈ (execCreateEntryTsIndex s).indices := by
  unfold execCreateEntryTsIndex; split <;> simp_all

theorem execCreateEntryTable_of_mem (s : Store) (h : "entry" ∈ s.tables) :
    execCreateEntryTable s = s := by
  unfold execCreateEntryTable; simp [h]

theorem execCreateEntryTsIndex_of_mem (s : Store) (h : "entry_ts_i" ∈ s.indices) :
    execCreateEntryTsIndex s = s := by
  unfold execCreateEntryTsIndex; simp [h]

theorem bootstrapStore_idem (s : Store) :
    bootstrapStore (bootstrapStore s) = bootstrapStore s := by
  unfold bootstrapStore
  rw [execCreateEntryTable_of_mem, execCreateEntryTsIndex_of_mem]
  · exact execCreateEntryTsIndex_mem _
  · rw [execCreateEntryTsIndex_tables]
    exact execCreateEntryTable_mem s

/-! ### Connect lemmas -/

theorem create_entry_table_ok (env : Env) (s : Store)
    (h1 : env.createTableOk = true) (h2 : env.createIndexOk = true) :
    SqliteLogAppender.create_entry_table_if_not_exists env s =
      (bootstrapStore s, none) := by
  unfold SqliteLogAppender.create_entry_table_if_not_exists bootstrapStore
  simp [h1, h2]

theorem create_entry_table_entries (env : Env) (s : Store) :
    ((SqliteLogAppender.create_entry_table_if_not_exists env s).1).entries =
      s.entries := by
  unfold SqliteLogAppender.create_entry_table_if_not_exists
  split
  · split <;> simp
  · simp

theorem connect_ok (env : Env) (a : SqliteLogAppender) (w : World)
    (h0 : env.openOk = true) (h1 : env.createTableOk = true)
    (h2 : env.createIndexOk = true) :
    SqliteLogAppender.connect env a w =
      (⟨bootstrapStore w.store, w.connOpens + 1⟩, none) := by
  unfold SqliteLogAppender.connect
  simp [h0, create_entry_table_ok env w.store h1 h2]

theorem connect_entries (env : Env) (a : SqliteLogAppender) (w : World) :
    ((SqliteLogAppender.connect env a w).1).store.entries =
      w.store.entries := by
  unfold SqliteLogAppender.connect
  split
  · simp [create_entry_table_entries]
  · simp

theorem connect_none_iff (env : Env) (a : SqliteLogAppender) (w : World) :
    (SqliteLogAppender.connect env a w).2 = none ↔
      (env.openOk && env.createTableOk && env.createIndexOk) = true := by
  unfold SqliteLogAppender.connect
    SqliteLogAppender.create_entry_table_if_not_exists
  rcases h0 : env.openOk <;> rcases h1 : env.createTableOk <;>
    rcases h2 : env.createIndexOk <;> simp [h0, h1, h2]

/-! ### Insert-loop lemmas -/

theorem runInserts_ok (env : Env) :
    ∀ (l : List LogRecord) (i : Nat) (p : List LogRecord),
      (∀ j, j < l.length → env.insertOk (i + j) = true) →
      runInserts env l i p = (p ++ l, none) := by
  intro l
  induction l with
  | nil => intro i p _; simp [runInserts]
  | cons lr rest ih =>
    intro i p h
    have h0 : env.insertOk i = true := by simpa using h 0 (by simp)
    have hrec := ih (i + 1) (p ++ [lr]) (fun j hj => by
      have e : i + 1 + j = i + (j + 1) := by omega
      rw [e]
      exact h (j + 1) (by simp; omega))
    simp [runInserts, h0, hrec]

theorem runInserts_none (env : Env) :
    ∀ (l : List LogRecord) (i : Nat) (p : List LogRecord),
      (runInserts env l i p).2 = none →
      ∀ j, j < l.length → env.insertOk (i + j) = true := by
  intro l
  induction l with
  | nil => intro i p _ j hj; simp at hj
  | cons lr rest ih =>
    intro i p h j hj
    rcases h0 : env.insertOk i with _ | _
    · rw [runInserts, h0] at h
      simp at h
    · rw [runInserts, h0] at h
      simp at h
      rcases j with _ | j
      · simpa using h0
      · have e : i + (j + 1) = i + 1 + j := by omega
        rw [e]
        exact ih (i + 1) (p ++ [lr]) h j (by simp at hj; omega)

theorem runInserts_some (env : Env) :
    ∀ (l : List LogRecord) (i : Nat) (p : List LogRecord),
      (∃ j, j < l.length ∧ env.insertOk (i + j) = false) →
      ∃ k, (runInserts env l i p).2 = some (SqlError.insertFailed k) := by
  intro l
  induction l with
  | nil => intro i p h; rcases h with ⟨j, hj, _⟩; simp at hj
  | cons lr rest ih =>
    intro i p h
    rcases h0 : env.insertOk i with _ | _
    · exact ⟨i, by rw [runInserts, h0]; simp⟩
    · rcases h with ⟨j, hj, hbad⟩
      rcases j with _ | j
      · rw [Nat.add_zero] at hbad
        rw [hbad] at h0
        cases h0
      · have hrec := ih (i + 1) (p ++ [lr])
          ⟨j, by simp at hj; omega, by
            have e : i + 1 + j = i + (j + 1) := by omega
            rw [e]; exact hbad⟩
        rw [runInserts, h0]
        simpa using hrec

/-! ### flush_buf characterization -/

theorem flush_buf_ok (env : Env) (a : SqliteLogAppender)
    (buf : List LogRecord) (w : World)
    (h : env.flushStepsOk buf.length = true) :
    SqliteLogAppender.flush_buf env a buf w =
      ([], ⟨{ bootstrapStore w.store with entries := w.store.entries ++ buf },
            w.connOpens + 1⟩, none) := by
  simp only [Env.flushStepsOk, Bool.and_eq_true, List.all_eq_true,
    List.mem_range, and_assoc] at h
  obtain ⟨h0, h1, h2, h3, h4, hins, h6⟩ := h
  have hc := connect_ok env a w h0 h1 h2
  have hr := runInserts_ok env buf 0 [] (fun j hj => by simpa using hins j hj)
  simp [SqliteLogAppender.flush_buf, hc, hr, h3, h4, h6]

theorem flush_buf_err (env : Env) (a : SqliteLogAppender)
    (buf : List LogRecord) (w : World) (e : SqlError)
    (h : (SqliteLogAppender.flush_buf env a buf w).2.2 = some e) :
    (SqliteLogAppender.flush_buf env a buf w).1 = buf ∧
      ((SqliteLogAppender.flush_buf env a buf w).2.1).store.entries =
        w.store.entries := by
  rcases hc : (SqliteLogAppender.connect env a w).2 with _ | e1
  · rcases hb : env.beginOk with _ | _
    · simp [SqliteLogAppender.flush_buf, hc, hb, connect_entries]
    · rcases hp : env.prepareOk with _ | _
      · simp [SqliteLogAppender.flush_buf, hc, hb, hp, connect_entries]
      · rcases hr : (runInserts env buf 0 []).2 with _ | e2
        · rcases hcm : env.commitOk with _ | _
          · simp [SqliteLogAppender.flush_buf, hc, hb, hp, hr, hcm,
              connect_entries]
          · simp [SqliteLogAppender.flush_buf, hc, hb, hp, hr, hcm] at h
        · simp [SqliteLogAppender.flush_buf, hc, hb, hp, hr, connect_entries]
  · simp [SqliteLogAppender.flush_buf, hc, connect_entries]

theorem flush_buf_none_iff (env : Env) (a : SqliteLogAppender)
    (buf : List LogRecord) (w : World) :
    (SqliteLogAppender.flush_buf env a buf w).2.2 = none ↔
      env.flushStepsOk buf.length = true := by
  constructor
  · intro h
    rcases hc : (SqliteLogAppender.connect env a w).2 with _ | e1
    swap
    · simp [SqliteLogAppender.flush_buf, hc] at h
    rcases hb : env.beginOk with _ | _
    · simp [SqliteLogAppender.flush_buf, hc, hb] at h
    rcases hp : env.prepareOk with _ | _
    · simp [SqliteLogAppender.flush_buf, hc, hb, hp] at h
    rcases hr : (runInserts env buf 0 []).2 with _ | e2
    swap
    · simp [SqliteLogAppender.flush_buf, hc, hb, hp, hr] at h
    rcases hcm : env.commitOk with _ | _
    · simp [SqliteLogAppender.flush_buf, hc, hb, hp, hr, hcm] at h
    have hins := runInserts_none env buf 0 [] hr
    have hopen := (connect_none_iff env a w).mp hc
    simp only [Bool.and_eq_true, and_assoc] at hopen
    simp only [Env.flushStepsOk, hopen.1, hopen.2.1, hopen.2.2, hb, hp, hcm,
      Bool.and_eq_true, List.all_eq_true, List.mem_range, Bool.and_true,
      Bool.true_and, true_and, and_true]
    intro i hi
    simpa using hins i hi
  · intro h
    simp [flush_buf_ok env a buf w h]

/-! ### Append-path lemmas -/

theorem maybe_flush_buf_lt (env : Env) (a : SqliteLogAppender)
    (buf : List LogRecord) (w : World) (h : buf.length < a.buf_size) :
    SqliteLogAppender.maybe_flush_buf env a buf w = (buf, w, none) := by
  simp [SqliteLogAppender.maybe_flush_buf, h]

theorem maybe_flush_buf_ge (env : Env) (a : SqliteLogAppender)
    (buf : List LogRecord) (w : World) (h : a.buf_size ≤ buf.length) :
    SqliteLogAppender.maybe_flush_buf env a buf w =
      SqliteLogAppender.flush_buf env a buf w := by
  simp [SqliteLogAppender.maybe_flush_buf, Nat.not_lt.mpr h]

theorem append_below (env : Env) (a : SqliteLogAppender) (lr : LogRecord)
    (w : World) (h : a.buf.length + 1 < a.buf_size) :
    SqliteLogAppender.append env a lr w =
      ({ a with buf := a.buf ++ [lr] }, w, none) := by
  have hm := maybe_flush_buf_lt env a (a.buf ++ [lr]) w (by simpa using h)
  simp [SqliteLogAppender.append, hm]

theorem append_reach (env : Env) (a : SqliteLogAppender) (lr : LogRecord)
    (w : World) (hge : a.buf_size ≤ a.buf.length + 1)
    (henv : env.flushStepsOk (a.buf.length + 1) = true) :
    SqliteLogAppender.append env a lr w =
      ({ a with buf := [] },
       ⟨{ bootstrapStore w.store with
            entries := w.store.entries ++ (a.buf ++ [lr]) },
        w.connOpens + 1⟩, none) := by
  have hm := maybe_flush_buf_ge env a (a.buf ++ [lr]) w (by simpa using hge)
  have hf := flush_buf_ok env a (a.buf ++ [lr]) w (by simpa using henv)
  simp [SqliteLogAppender.append, hm, hf]

theorem appendSeq_cons (env : Env) {a a' : SqliteLogAppender} (lr : LogRecord)
    (rest : List LogRecord) {w w' : World}
    (h : SqliteLogAppender.append env a lr w = (a', w', none)) :
    SqliteLogAppender.appendSeq env a (lr :: rest) w =
      SqliteLogAppender.appendSeq env a' rest w' := by
  simp only [SqliteLogAppender.appendSeq, h]

theorem appendSeq_below (env : Env) :
    ∀ (lrs : List LogRecord) (a : SqliteLogAppender) (w : World),
      a.buf.length + lrs.length < a.buf_size →
      SqliteLogAppender.appendSeq env a lrs w =
        ({ a with buf := a.buf ++ lrs }, w, none) := by
  intro lrs
  induction lrs with
  | nil => intro a w _; simp [SqliteLogAppender.appendSeq]
  | cons lr rest ih =>
    intro a w h
    simp only [List.length_cons] at h
    have h1 : a.buf.length + 1 < a.buf_size := by omega
    have ha := append_below env a lr w h1
    have hrec := ih { a with buf := a.buf ++ [lr] } w (by simp; omega)
    simp only [SqliteLogAppender.appendSeq, ha, hrec]
    simp

theorem appendSeq_reach (env : Env) :
    ∀ (lrs : List LogRecord) (a : SqliteLogAppender) (w : World),
      0 < lrs.length →
      a.buf.length + lrs.length = a.buf_size →
      env.flushStepsOk a.buf_size = true →
      SqliteLogAppender.appendSeq env a lrs w =
        ({ a with buf := [] },
         ⟨{ bootstrapStore w.store with
              entries := w.store.entries ++ (a.buf ++ lrs) },
          w.connOpens + 1⟩, none) := by
  intro lrs
  induction lrs with
  | nil => intro a w h0 _ _; simp at h0
  | cons lr rest ih =>
    intro a w h0 hsum henv
    cases rest with
    | nil =>
      simp only [List.length_cons, List.length_nil] at hsum
      have ha := append_reach env a lr w (by omega) (by rw [hsum]; exact henv)
      simp only [SqliteLogAppender.appendSeq, ha]
    | cons lr2 rest2 =>
      simp only [List.length_cons] at hsum
      have h1 : a.buf.length + 1 < a.buf_size := by omega
      have ha := append_below env a lr w h1
      have hrec := ih { a with buf := a.buf ++ [lr] } w (by simp)
        (by simp; omega) henv
      rw [appendSeq_cons env lr (lr2 :: rest2) ha, hrec]
      simp

/-! ### Configuration-deserialization lemmas -/

theorem deserializeConfigFields_some (rest : List (String × String))
    (v p : String)
    (h : deserializeConfigFields rest (some v) =
      Except.ok ⟨p⟩) :
    rest = [] ∧ v = p := by
  cases rest with
  | nil =>
    simp only [deserializeConfigFields, Except.ok.injEq,
      SqliteLogAppenderConfig.mk.injEq] at h
    exact ⟨rfl, h⟩
  | cons kv r2 =>
    obtain ⟨k2, v2⟩ := kv
    by_cases hk : k2 = "path"
    · simp [deserializeConfigFields, hk] at h
    · simp [deserializeConfigFields, hk] at h

theorem config_ok_iff (fields : List (String × String)) (p : String) :
    SqliteLogAppenderConfig.deserialize fields = Except.ok ⟨p⟩ ↔
      fields = [("path", p)] := by
  constructor
  · intro h
    cases fields with
    | nil =>
      simp [SqliteLogAppenderConfig.deserialize, deserializeConfigFields] at h
    | cons kv rest =>
      obtain ⟨k, v⟩ := kv
      by_cases hk : k = "path"
      · subst hk
        unfold SqliteLogAppenderConfig.deserialize at h
        simp only [deserializeConfigFields, if_pos rfl] at h
        obtain ⟨hrest, hv⟩ := deserializeConfigFields_some rest v p h
        subst hrest
        subst hv
        rfl
      · simp [SqliteLogAppenderConfig.deserialize, deserializeConfigFields,
          hk] at h
  · intro h
    subst h
    simp [SqliteLogAppenderConfig.deserialize, deserializeConfigFields]

theorem deserializeConfigFields_unknown :
    ∀ (fields : List (String × String)) (acc : Option String) (k v : String),
      (k, v) ∈ fields → k ≠ "path" →
      ∃ e, deserializeConfigFields fields acc = Except.error e := by
  intro fields
  induction fields with
  | nil => intro acc k v hm _; simp at hm
  | cons kv rest ih =>
    intro acc k v hm hk
    obtain ⟨k1, v1⟩ := kv
    by_cases h1 : k1 = "path"
    · subst h1
      cases acc with
      | some q =>
        exact ⟨ConfigError.duplicateField, by simp [deserializeConfigFields]⟩
      | none =>
        have hm2 : (k, v) ∈ rest := by
          rcases List.mem_cons.mp hm with heq | hmem
          · have hkp : k = "path" := congrArg Prod.fst heq
            exact absurd hkp hk
          · exact hmem
        obtain ⟨e, he⟩ := ih (some v1) k v hm2 hk
        exact ⟨e, by simpa [deserializeConfigFields] using he⟩
    · exact ⟨ConfigError.unknownField k1,
        by simp [deserializeConfigFields, h1]⟩

/-! ### Nodup preservation of the bootstrap DDL -/

theorem execCreateEntryTable_nodup (s : Store) (h : s.tables.Nodup) :
    (execCreateEntryTable s).tables.Nodup := by
  by_cases hmem : "entry" ∈ s.tables
  · simpa [execCreateEntryTable, hmem] using h
  · simp [execCreateEntryTable, hmem, List.nodup_append, h]

theorem execCreateEntryTsIndex_nodup (s : Store) (h : s.indices.Nodup) :
    (execCreateEntryTsIndex s).indices.Nodup := by
  by_cases hmem : "entry_ts_i" ∈ s.indices
  · simpa [execCreateEntryTsIndex, hmem] using h
  · simp [execCreateEntryTsIndex, hmem, List.nodup_append, h]

/-! ### Claim theorems -/

/-- C1: every append that brings the buffer length to or past the threshold
runs the flush procedure synchronously within that same append call
(`maybe_flush_buf` is exactly `flush_buf` at or past the threshold), and for
a sequence of appends on a fresh sink with positive threshold that reaches
the threshold, a successful flush leaves the buffer empty when the call
returns, the store containing exactly the appended records in append order. -/
theorem spec_C1 :
    (∀ (env : Env) (a : SqliteLogAppender) (buf : List LogRecord) (w : World),
        a.buf_size ≤ buf.length →
        SqliteLogAppender.maybe_flush_buf env a buf w =
          SqliteLogAppender.flush_buf env a buf w) ∧
    (∀ (env : Env) (t : Nat) (fn : String) (lrs : List LogRecord) (w : World),
        0 < t → lrs.length = t → env.flushStepsOk t = true →
        w.store.entries = [] →
        SqliteLogAppender.appendSeq env ⟨[], t, fn⟩ lrs w =
          (⟨[], t, fn⟩,
           ⟨{ bootstrapStore w.store with entries := lrs },
            w.connOpens + 1⟩, none)) := by
  constructor
  · intro env a buf w h
    exact maybe_flush_buf_ge env a buf w h
  · intro env t fn lrs w ht hlen henv hw
    have h := appendSeq_reach env lrs ⟨[], t, fn⟩ w (by omega)
      (by simpa using hlen) (by simpa using henv)
    simpa [hw] using h

/-- C1 witness: threshold 2, two appends on a fresh sink flush synchronously,
leaving an empty buffer and the two records in the store in order. -/
theorem spec_C1_witness :
    SqliteLogAppender.appendSeq happyEnv ⟨[], 2, "log.db"⟩ [r0, r1] w0 =
      (⟨[], 2, "log.db"⟩,
       ⟨{ bootstrapStore w0.store with entries := [r0, r1] },
        w0.connOpens + 1⟩, none) :=
  spec_C1.2 happyEnv 2 "log.db" [r0, r1] w0 (by decide) (by decide)
    (by decide) rfl

/-- C2: a flush is all-or-nothing for the buffer: if every step (connect,
bootstrap, begin, prepare, each insert, commit) succeeds, the whole buffer
is appended to the store in order and the buffer is cleared; if any step
fails, the flush returns an error, no record of the batch is persisted, and
the buffer is left fully intact. -/
theorem spec_C2 (env : Env) (a : SqliteLogAppender) (buf : List LogRecord)
    (w : World) :
    (env.flushStepsOk buf.length = true →
      SqliteLogAppender.flush_buf env a buf w =
        ([], ⟨{ bootstrapStore w.store with
                  entries := w.store.entries ++ buf },
              w.connOpens + 1⟩, none)) ∧
    (env.flushStepsOk buf.length = false →
      ∃ e, (SqliteLogAppender.flush_buf env a buf w).2.2 = some e ∧
        (SqliteLogAppender.flush_buf env a buf w).1 = buf ∧
        ((SqliteLogAppender.flush_buf env a buf w).2.1).store.entries =
          w.store.entries) := by
  constructor
  · exact flush_buf_ok env a buf w
  · intro h
    rcases he : (SqliteLogAppender.flush_buf env a buf w).2.2 with _ | e
    · rw [flush_buf_none_iff] at he
      rw [he] at h
      cases h
    · obtain ⟨h1, h2⟩ := flush_buf_err env a buf w e he
      exact ⟨e, rfl, h1, h2⟩

/-- C2 witness: a fully successful flush of two records persists both and
clears the buffer; a flush whose inserts fail persists nothing and leaves
the buffer intact. -/
theorem spec_C2_witness :
    SqliteLogAppender.flush_buf happyEnv ⟨[], 2, "log.db"⟩ [r0, r1] w0 =
      ([], ⟨{ bootstrapStore w0.store with
                entries := w0.store.entries ++ [r0, r1] },
            w0.connOpens + 1⟩, none) ∧
    ∃ e,
      (SqliteLogAppender.flush_buf badInsertEnv ⟨[], 2, "log.db"⟩
          [r0, r1] w0).2.2 = some e ∧
      (SqliteLogAppender.flush_buf badInsertEnv ⟨[], 2, "log.db"⟩
          [r0, r1] w0).1 = [r0, r1] ∧
      ((SqliteLogAppender.flush_buf badInsertEnv ⟨[], 2, "log.db"⟩
          [r0, r1] w0).2.1).store.entries = w0.store.entries :=
  ⟨(spec_C2 happyEnv ⟨[], 2, "log.db"⟩ [r0, r1] w0).1 (by decide),
   (spec_C2 badInsertEnv ⟨[], 2, "log.db"⟩ [r0, r1] w0).2 (by decide)⟩

/-- C3 counterexample: the claim says an explicit flush on an empty buffer
opens no store connection and performs no bootstrap; on the code,
`Append::flush` calls `flush_buf` unconditionally, so on a fresh world the
connection count goes from 0 to 1 and the bootstrap DDL runs. -/
theorem spec_C3_cex :
    (SqliteLogAppender.flush happyEnv ⟨[], 3, "log.db"⟩ w0).2.1.connOpens
        = 1 ∧
      (SqliteLogAppender.flush happyEnv ⟨[], 3, "log.db"⟩
          w0).2.1.store.tables = ["entry"] ∧
      w0.connOpens = 0 := by decide

/-- C3 (amended): an explicit flush on an empty buffer opens a store
connection, bootstraps the schema, and commits an empty transaction; when
those steps succeed it raises no error, inserts no record, and leaves the
buffer empty. -/
theorem spec_C3 (env : Env) (a : SqliteLogAppender) (w : World)
    (hbuf : a.buf = []) (henv : env.flushStepsOk 0 = true) :
    SqliteLogAppender.flush env a w =
      (a, ⟨{ bootstrapStore w.store with entries := w.store.entries },
           w.connOpens + 1⟩, FlushOutcome.returned) := by
  obtain ⟨buf, bs, fn⟩ := a
  simp only at hbuf
  subst hbuf
  have hfb := flush_buf_ok env ⟨[], bs, fn⟩ [] w (by simpa using henv)
  simp [SqliteLogAppender.flush, hfb]

/-- C3 witness: the amended behaviour at a fresh world with an empty buffer
in the all-success environment. -/
theorem spec_C3_witness :
    SqliteLogAppender.flush happyEnv ⟨[], 3, "log.db"⟩ w0 =
      (⟨[], 3, "log.db"⟩,
       ⟨{ bootstrapStore w0.store with entries := w0.store.entries },
        w0.connOpens + 1⟩, FlushOutcome.returned) :=
  spec_C3 happyEnv ⟨[], 3, "log.db"⟩ w0 rfl (by decide)

/-- C4: a sequence of appends on a fresh sink whose length stays strictly
below the threshold opens no store connection (the world, including its
connection count, is unchanged), succeeds, and leaves the buffer holding
exactly those records in arrival order. -/
theorem spec_C4 (env : Env) (t : Nat) (fn : String) (lrs : List LogRecord)
    (w : World) (h : lrs.length < t) :
    SqliteLogAppender.appendSeq env ⟨[], t, fn⟩ lrs w =
      (⟨lrs, t, fn⟩, w, none) := by
  have hb := appendSeq_below env lrs ⟨[], t, fn⟩ w (by simpa using h)
  simpa using hb

/-- C4 witness: two appends below threshold 3 leave the world untouched and
the buffer holding the two records in order. -/
theorem spec_C4_witness :
    SqliteLogAppender.appendSeq happyEnv ⟨[], 3, "log.db"⟩ [r0, r1] w0 =
      (⟨[r0, r1], 3, "log.db"⟩, w0, none) :=
  spec_C4 happyEnv 3 "log.db" [r0, r1] w0 (by decide)

/-- C5: the two flush call sites have distinct error contracts: a failing
append-triggered flush surfaces as a returned recoverable error value with
the buffer (including the new record) left intact, while a failing
explicitly-invoked flush panics (`FlushOutcome.panicked`) instead of
returning an error value, also with the buffer left intact. -/
theorem spec_C5 :
    (∀ (env : Env) (a : SqliteLogAppender) (lr : LogRecord) (w : World)
        (e : SqlError),
        a.buf_size ≤ a.buf.length + 1 →
        (SqliteLogAppender.flush_buf env a (a.buf ++ [lr]) w).2.2 = some e →
        SqliteLogAppender.append env a lr w =
          ({ a with buf := a.buf ++ [lr] },
           (SqliteLogAppender.flush_buf env a (a.buf ++ [lr]) w).2.1,
           some e)) ∧
    (∀ (env : Env) (a : SqliteLogAppender) (w : World) (e : SqlError),
        (SqliteLogAppender.flush_buf env a a.buf w).2.2 = some e →
        SqliteLogAppender.flush env a w =
          (a, (SqliteLogAppender.flush_buf env a a.buf w).2.1,
           FlushOutcome.panicked e)) := by
  constructor
  · intro env a lr w e hge he
    have hm := maybe_flush_buf_ge env a (a.buf ++ [lr]) w (by simpa using hge)
    have hb := (flush_buf_err env a (a.buf ++ [lr]) w e he).1
    simp [SqliteLogAppender.append, hm, hb, he]
  · intro env a w e he
    obtain ⟨buf, bs, fn⟩ := a
    have hb := (flush_buf_err env ⟨buf, bs, fn⟩ buf w e he).1
    simp only at he hb
    simp [SqliteLogAppender.flush, he, hb]

/-- C5 witness: with threshold 1 and a failing insert, the append call
returns the error as a value with the record still buffered, while the
explicit flush on the same state panics with that error. -/
theorem spec_C5_witness :
    SqliteLogAppender.append badInsertEnv ⟨[], 1, "log.db"⟩ r0 w0 =
      (⟨[r0], 1, "log.db"⟩, ⟨⟨["entry"], ["entry_ts_i"], []⟩, 1⟩,
       some (SqlError.insertFailed 0)) ∧
    SqliteLogAppender.flush badInsertEnv ⟨[r0], 1, "log.db"⟩ w0 =
      (⟨[r0], 1, "log.db"⟩, ⟨⟨["entry"], ["entry_ts_i"], []⟩, 1⟩,
       FlushOutcome.panicked (SqlError.insertFailed 0)) := by
  constructor
  · have h := spec_C5.1 badInsertEnv ⟨[], 1, "log.db"⟩ r0 w0
      (SqlError.insertFailed 0) (by decide) (by decide)
    exact h.trans (by decide)
  · have h := spec_C5.2 badInsertEnv ⟨[r0], 1, "log.db"⟩ w0
      (SqlError.insertFailed 0) (by decide)
    exact h.trans (by decide)

/-- C6: constructing a sink performs no I/O for every threshold and every
store-locator string — the constructor returns the ready sink and the world
(store state and connection count) unchanged — and an append strictly below
the threshold also leaves the world unchanged, so I/O first occurs only on
a threshold-reaching append or an explicit flush. -/
theorem spec_C6 :
    (∀ (t : Nat) (fn : String) (w : World),
        SqliteLogAppender.new t fn w = (Except.ok ⟨[], t, fn⟩, w)) ∧
    (∀ (env : Env) (a : SqliteLogAppender) (lr : LogRecord) (w : World),
        (a.buf ++ [lr]).length < a.buf_size →
        (SqliteLogAppender.append env a lr w).2.1 = w) := by
  constructor
  · intro t fn w
    rfl
  · intro env a lr w h
    have hb := append_below env a lr w (by simpa using h)
    simp [hb]

/-- C6 witness: construction with threshold 0 and empty locator leaves the
fresh world unchanged, and a below-threshold append also leaves it
unchanged. -/
theorem spec_C6_witness :
    SqliteLogAppender.new 0 "" w0 = (Except.ok ⟨[], 0, ""⟩, w0) ∧
      (SqliteLogAppender.append happyEnv ⟨[], 5, "log.db"⟩ r0 w0).2.1 = w0 :=
  ⟨spec_C6.1 0 "" w0, spec_C6.2 happyEnv ⟨[], 5, "log.db"⟩ r0 w0 (by decide)⟩

/-- C7: the configuration accepts exactly one field `path` (required):
deserialization succeeds precisely on the one-field configuration
`[("path", p)]`, any configuration containing an unknown field is rejected
with an error, and the sink built from a valid configuration always has
flush threshold 1024. -/
theorem spec_C7 :
    (∀ (fields : List (String × String)) (p : String),
        SqliteLogAppenderConfig.deserialize fields =
            Except.ok ⟨p⟩ ↔
          fields = [("path", p)]) ∧
    (∀ (fields : List (String × String)) (k v : String),
        (k, v) ∈ fields → k ≠ "path" →
        ∃ e, SqliteLogAppenderConfig.deserialize fields =
          Except.error e) ∧
    (∀ (config : SqliteLogAppenderConfig) (w : World),
        SqliteLogAppenderDeserializer.deserialize config w =
          (Except.ok ⟨[], 1024, config.path⟩, w)) := by
  refine ⟨config_ok_iff, ?_, ?_⟩
  · intro fields k v hm hk
    exact deserializeConfigFields_unknown fields none k v hm hk
  · intro config w
    rfl

/-- C7 witness: `[("path", "log.db")]` is accepted, adding an unknown field
`mode` is rejected, and the built sink has threshold 1024. -/
theorem spec_C7_witness :
    SqliteLogAppenderConfig.deserialize [("path", "log.db")] =
      Except.ok ⟨"log.db"⟩ ∧
    (∃ e, SqliteLogAppenderConfig.deserialize
        [("path", "log.db"), ("mode", "fast")] = Except.error e) ∧
    SqliteLogAppenderDeserializer.deserialize ⟨"log.db"⟩ w0 =
      (Except.ok ⟨[], 1024, "log.db"⟩, w0) :=
  ⟨(spec_C7.1 [("path", "log.db")] "log.db").mpr rfl,
   spec_C7.2.1 [("path", "log.db"), ("mode", "fast")] "mode" "fast"
     (by decide) (by decide),
   spec_C7.2.2 ⟨"log.db"⟩ w0⟩

/-- C8: schema bootstrap is idempotent — running the create-table and
create-index steps twice equals running them once, the bootstrapped store
has the `entry` table and `entry_ts_i` index with no duplicates introduced
and its rows untouched — and when its DDL succeeds,
`create_entry_table_if_not_exists` errors out never and every `connect`
(hence every store connection of `flush_buf`, which inserts only after
`connect`) applies the bootstrap. -/
theorem spec_C8 :
    (∀ s : Store, bootstrapStore (bootstrapStore s) = bootstrapStore s) ∧
    (∀ s : Store,
        "entry" ∈ (bootstrapStore s).tables ∧
        "entry_ts_i" ∈ (bootstrapStore s).indices ∧
        (s.tables.Nodup → (bootstrapStore s).tables.Nodup) ∧
        (s.indices.Nodup → (bootstrapStore s).indices.Nodup) ∧
        (bootstrapStore s).entries = s.entries) ∧
    (∀ (env : Env) (a : SqliteLogAppender) (w : World),
        env.createTableOk = true → env.createIndexOk = true →
        SqliteLogAppender.create_entry_table_if_not_exists env w.store =
            (bootstrapStore w.store, none) ∧
          (env.openOk = true →
            SqliteLogAppender.connect env a w =
              (⟨bootstrapStore w.store, w.connOpens + 1⟩, none))) := by
  refine ⟨bootstrapStore_idem, ?_, ?_⟩
  · intro s
    refine ⟨?_, execCreateEntryTsIndex_mem _, ?_, ?_, bootstrapStore_entries s⟩
    · unfold bootstrapStore
      rw [execCreateEntryTsIndex_tables]
      exact execCreateEntryTable_mem s
    · intro h
      unfold bootstrapStore
      rw [execCreateEntryTsIndex_tables]
      exact execCreateEntryTable_nodup s h
    · intro h
      unfold bootstrapStore
      exact execCreateEntryTsIndex_nodup _ (by simpa using h)
  · intro env a w h1 h2
    exact ⟨create_entry_table_ok env w.store h1 h2,
      fun h0 => connect_ok env a w h0 h1 h2⟩

/-- C8 witness: bootstrapping the empty store twice equals bootstrapping it
once, and a successful connect on a fresh world yields the bootstrapped
store. -/
theorem spec_C8_witness :
    bootstrapStore (bootstrapStore ⟨[], [], []⟩) =
        bootstrapStore ⟨[], [], []⟩ ∧
      SqliteLogAppender.connect happyEnv ⟨[], 3, "log.db"⟩ w0 =
        (⟨bootstrapStore w0.store, w0.connOpens + 1⟩, none) :=
  ⟨spec_C8.1 ⟨[], [], []⟩,
   (spec_C8.2.2 happyEnv ⟨[], 3, "log.db"⟩ w0 rfl rfl).2 rfl⟩

/-- C9: sink construction is infallible: for every threshold (including 0)
and every store-locator string (including the empty string), `new` returns
the ready sink and never the error alternative. -/
theorem spec_C9 (t : Nat) (fn : String) (w : World) :
    (SqliteLogAppender.new t fn w).1 = Except.ok ⟨[], t, fn⟩ ∧
      ∀ e, (SqliteLogAppender.new t fn w).1 ≠ Except.error e :=
  ⟨rfl, fun e h => by simp [SqliteLogAppender.new] at h⟩

/-- C9 witness: construction with threshold 0 and the empty locator string
returns the ready sink. -/
theorem spec_C9_witness :
    (SqliteLogAppender.new 0 "" w0).1 = Except.ok ⟨[], 0, ""⟩ :=
  (spec_C9 0 "" w0).1

/-- C10: threshold positivity is not enforced: a sink with threshold 0 is
accepted by the constructor, and on such a sink every call to
`maybe_flush_buf` (hence every append, whose post-push buffer length always
reaches 0) runs the flush procedure; in particular the very first append in
an all-success environment already flushes. -/
theorem spec_C10 :
    (∀ (fn : String) (w : World),
        (SqliteLogAppender.new 0 fn w).1 = Except.ok ⟨[], 0, fn⟩) ∧
    (∀ (env : Env) (a : SqliteLogAppender) (buf : List LogRecord)
        (w : World), a.buf_size = 0 →
        SqliteLogAppender.maybe_flush_buf env a buf w =
          SqliteLogAppender.flush_buf env a buf w) ∧
    (∀ (env : Env) (a : SqliteLogAppender) (lr : LogRecord) (w : World),
        a.buf_size = 0 → env.flushStepsOk (a.buf.length + 1) = true →
        SqliteLogAppender.append env a lr w =
          ({ a with buf := [] },
           ⟨{ bootstrapStore w.store with
                entries := w.store.entries ++ (a.buf ++ [lr]) },
            w.connOpens + 1⟩, none)) := by
  refine ⟨fun fn w => rfl, ?_, ?_⟩
  · intro env a buf w h
    exact maybe_flush_buf_ge env a buf w (by omega)
  · intro env a lr w h henv
    exact append_reach env a lr w (by omega) henv

/-- C10 witness: the very first append on a fresh threshold-0 sink triggers
a flush that persists the single record. -/
theorem spec_C10_witness :
    SqliteLogAppender.append happyEnv ⟨[], 0, "log.db"⟩ r0 w0 =
      (⟨[], 0, "log.db"⟩, ⟨⟨["entry"], ["entry_ts_i"], [r0]⟩, 1⟩, none) := by
  have h := spec_C10.2.2 happyEnv ⟨[], 0, "log.db"⟩ r0 w0 rfl (by decide)
  exact h.trans (by decide)
